import Mathlib

/-!
Verification of the pyramid_animation time-mapping and curve-evaluation
engine, shallowly embedded from src/animation.rs, src/curve_track.rs and
src/track.rs.

Modelling conventions:
* A `time::Duration` is modelled by its millisecond count as `ℤ`: the Rust
  code inspects durations only through subtraction, comparison and
  `num_milliseconds()`, all exact at millisecond granularity.
* `f32` values are modelled by `ℚ`; the concrete values exercised here are
  exactly representable and the structural behaviour (empty versus one-pair
  output, which parameter is sampled) does not depend on float rounding.
* Rust's `%` on `i64` is truncated remainder, modelled by `Int.tmod`; the
  panic of `%` on a zero divisor is modelled by an `Option` result where
  `none` marks the panic.
* `NamedPropRef` is an opaque external key; it is modelled as `String`.
* Translation (`inner_translate`) can succeed, return a structured
  `PonTranslateErr`, or panic (out-of-bounds indexing, `unwrap` on `None`);
  the three outcomes are modelled by `TResult`.
-/

namespace PyramidAnimation

/-- Modelled from the spec: `Animatable` (animatable.rs is not under src/),
a composite value holding an ordered vector of floats. -/
abbrev Animatable : Type := List ℚ

/-- The opaque external property key; the engine only clones and compares it. -/
abbrev NamedPropRef : Type := String

/-- The `Loop` enum from curve_track.rs lines 10-14 (animation.rs declares an
identical enum at lines 9-13). -/
inductive Loop where
  | Forever
  | Once
deriving DecidableEq

/-- The `CurveTime` enum from curve_track.rs lines 16-22 (animation.rs declares an
identical enum at lines 15-21). -/
inductive CurveTime where
  | Relative
  | Absolute
deriving DecidableEq

/-- The `CurveTrack` struct from curve_track.rs lines 25-33; the boxed
`Curve<Animatable>` trait object is modelled by its `value` function. -/
structure CurveTrack where
  curve : ℚ → Animatable
  offset : ℤ
  property : NamedPropRef
  loop_type : Loop
  duration : ℤ
  curve_time : CurveTime

/-- Modelled from the spec: `FixedValueCurve` (curve.rs is not under src/)
returns the stored constant for every parameter (spec section 4.2). -/
def FixedValueCurve.value (v : Animatable) : ℚ → Animatable := fun _ => v

/-- Constructor `CurveTrack::new_fixed_value` (curve_track.rs lines 36-45);
`Duration::weeks(1)` is 604800000 milliseconds. -/
def CurveTrack.new_fixed_value (property : NamedPropRef) (value : Animatable) : CurveTrack :=
  { curve := FixedValueCurve.value value
    offset := 0
    property := property
    loop_type := Loop.Forever
    duration := 604800000
    curve_time := CurveTime.Absolute }

/-- The `curve_time` scaling match of curve_track.rs lines 60-63. -/
def CurveTrack.curveParamOf (tr : CurveTrack) (ms : ℤ) : ℚ :=
  match tr.curve_time with
  | CurveTime.Absolute => (ms : ℚ) / 1000
  | CurveTime.Relative => (ms : ℚ) / (tr.duration : ℚ)

/-- Method `Track::value_at` for `CurveTrack` (curve_track.rs lines 48-66).
`none` models the `i64 % 0` panic that the `Forever` wrap branch hits when
the stored duration is zero milliseconds; the early `return vec![]` of the
`Once` branch is `some []`, and the final sampling of the source is applied
in each non-returning branch. -/
def CurveTrack.value_at (tr : CurveTrack) (time : ℤ) : Option (List (NamedPropRef × Animatable)) :=
  let time1 : ℤ := time - tr.offset
  if time1 > tr.duration then
    if tr.loop_type = Loop.Forever then
      if tr.duration = 0 then none
      else some [(tr.property, tr.curve (tr.curveParamOf (Int.tmod time1 tr.duration)))]
    else some []
  else some [(tr.property, tr.curve (tr.curveParamOf time1))]

/-- The `Animation` struct from animation.rs lines 23-31; its curve is over plain `f32`. -/
structure Animation where
  curve : ℚ → ℚ
  offset : ℤ
  property : NamedPropRef
  loop_type : Loop
  duration : ℤ
  curve_time : CurveTime

/-- The `curve_time` scaling match of animation.rs lines 58-61. -/
def Animation.curveParamOf (a : Animation) (ms : ℤ) : ℚ :=
  match a.curve_time with
  | CurveTime.Absolute => (ms : ℚ) / 1000
  | CurveTime.Relative => (ms : ℚ) / (a.duration : ℚ)

/-- Method `Animatable::update` for `Animation` (animation.rs lines 46-64), the
scalar twin of `CurveTrack::value_at`, embedded independently. -/
def Animation.update (a : Animation) (time : ℤ) : Option (List (NamedPropRef × ℚ)) :=
  let time1 : ℤ := time - a.offset
  if time1 > a.duration then
    if a.loop_type = Loop.Forever then
      if a.duration = 0 then none
      else some [(a.property, a.curve (a.curveParamOf (Int.tmod time1 a.duration)))]
    else some []
  else some [(a.property, a.curve (a.curveParamOf time1))]

/-- The `TrackSetFromResource` struct from track.rs lines 15-18; the `Rc<TrackSet>`
resource (track_set.rs is not under src/) is modelled by its `value_at`
function. -/
structure TrackSetFromResource where
  resource : ℤ → List (NamedPropRef × Animatable)

/-- Method `Track::value_at` for `TrackSetFromResource` (track.rs lines 20-24). -/
def TrackSetFromResource.value_at (t : TrackSetFromResource) (time : ℤ) :
    List (NamedPropRef × Animatable) :=
  t.resource time

/-- Modelled from the spec: `LinearKeyFrameCurve::value` over scalar keys
(curve.rs is not under src/). Per spec section 4.3: clamp to the first key
at or before its time, clamp to the last key at or after its time, and
between the bracketing pair `keys[i].time <= t < keys[i+1].time` return
`keys[i].value + (keys[i+1].value - keys[i].value) * (t - keys[i].time) /
(keys[i+1].time - keys[i].time)`. -/
def lkfValue : List (ℚ × ℚ) → ℚ → ℚ
  | [], _ => 0
  | [(_, v0)], _ => v0
  | (t0, v0) :: (t1, v1) :: rest, t =>
    if t ≤ t0 then v0
    else if t < t1 then v0 + (v1 - v0) * (t - t0) / (t1 - t0)
    else lkfValue ((t1, v1) :: rest) t

/-- Modelled from the spec: componentwise linear interpolation of composite
`Animatable` values (spec sections 3 and 4.3). -/
def animLerp (a b : Animatable) (s : ℚ) : Animatable :=
  List.zipWith (fun x y => x + (y - x) * s) a b

/-- Modelled from the spec: `LinearKeyFrameCurve::value` over `Animatable`
keys, the componentwise analogue of `lkfValue`. -/
def lkfValueA : List (ℚ × Animatable) → ℚ → Animatable
  | [], _ => []
  | [(_, v0)], _ => v0
  | (t0, v0) :: (t1, v1) :: rest, t =>
    if t ≤ t0 then v0
    else if t < t1 then animLerp v0 v1 ((t - t0) / (t1 - t0))
    else lkfValueA ((t1, v1) :: rest) t

/-- The structured error type of the external pon translation
(`pyramid::pon::PonTranslateErr`), restricted to the variants this crate
produces or propagates. -/
inductive PonTranslateErr where
  | MismatchType (expected found : String)
  | InvalidValue (value : String)
  | Generic (message : String)
  | UnrecognizedType (typeName : String)
  | NoSuchField (field : String)
deriving DecidableEq

/-- Outcome of running an `inner_translate`: success, a structured error,
or a Rust panic (out-of-bounds indexing or `unwrap` on `None`). -/
inductive TResult (α : Type) where
  | ok (val : α)
  | err (e : PonTranslateErr)
  | panicked

/-- A `keys` array entry as seen by `Translatable<Key<Animatable>>`
(curve_track.rs lines 88-107): one of the shapes that parse to a `Key`
(object, two-element array, float-array), or a malformed entry. -/
inductive PonKey where
  | good (time : ℚ) (value : Animatable)
  | bad (shape : String)

/-- Translation `Translatable<Key<Animatable>>::inner_translate`
(curve_track.rs lines 88-107). -/
def translateKey : PonKey → Except PonTranslateErr (ℚ × Animatable)
  | PonKey.good t v => Except.ok (t, v)
  | PonKey.bad s => Except.error (PonTranslateErr.MismatchType "Object or Array" s)

/-- Reading `data.field_as::<Vec<Key>>("keys")`: translate every entry, propagating
the first error (`try!` semantics). -/
def translateKeys : List PonKey → Except PonTranslateErr (List (ℚ × Animatable))
  | [] => Except.ok []
  | k :: ks =>
    match translateKey k, translateKeys ks with
    | Except.ok kv, Except.ok kvs => Except.ok (kv :: kvs)
    | Except.error e, _ => Except.error e
    | Except.ok _, Except.error e => Except.error e

/-- The fields of the tagged configuration object that the translations in
curve_track.rs and track.rs read; `none` models an absent field. -/
structure PonData where
  property : Option NamedPropRef
  duration : Option ℚ
  loopOpt : Option Loop
  curveTimeOpt : Option CurveTime
  keys : Option (List PonKey)
  value : Option Animatable
  stringValue : Option String

/-- Rust's `as i64` cast from a float: truncation toward zero. -/
def ratTruncToInt (q : ℚ) : ℤ := if 0 ≤ q then ⌊q⌋ else ⌈q⌉

/-- Translation `Translatable<CurveTrack>::inner_translate` (curve_track.rs
lines 109-148), taking the already-split `TypedPon` tag and data.
`TResult.panicked` marks the `keys_array[0]` indexing, which panics in Rust
when the `keys` array is empty. The stored duration is
`Duration::milliseconds((duration * 1000.0) as i64)` and no positivity
check is performed on it. -/
def ponTranslateCurveTrack (type_name : String) (data : PonData) : TResult CurveTrack :=
  if type_name = "key_framed" then
    match data.property with
    | none => TResult.err (PonTranslateErr.NoSuchField "property")
    | some property =>
      let duration : ℚ := data.duration.getD 1
      let loop_type : Loop := data.loopOpt.getD Loop.Once
      let curve_time : CurveTime := data.curveTimeOpt.getD CurveTime.Absolute
      match data.keys with
      | none => TResult.err (PonTranslateErr.NoSuchField "keys")
      | some keys_array =>
        match keys_array with
        | [] => TResult.panicked
        | first_key :: _ =>
          match translateKey first_key with
          | Except.error _ => TResult.err (PonTranslateErr.Generic "Unrecognized keys")
          | Except.ok _ =>
            match translateKeys keys_array with
            | Except.error e => TResult.err e
            | Except.ok keys =>
              TResult.ok
                { curve := lkfValueA keys
                  offset := 0
                  property := property
                  loop_type := loop_type
                  duration := ratTruncToInt (duration * 1000)
                  curve_time := curve_time }
  else if type_name = "fixed_value" then
    match data.property with
    | none => TResult.err (PonTranslateErr.NoSuchField "property")
    | some property =>
      match data.value with
      | none => TResult.err (PonTranslateErr.NoSuchField "value")
      | some value => TResult.ok (CurveTrack.new_fixed_value property value)
  else TResult.err (PonTranslateErr.UnrecognizedType type_name)

/-- The parts of the `TranslateContext` that track.rs consults: the document
resource registry (each registered `Rc<TrackSet>` modelled by its `value_at`
function) and the translations of the `track_set` and `weighted_tracks`
tags, whose source files are not under src/ and stay opaque here. -/
structure TranslateContext where
  resources : String → Option (ℤ → List (NamedPropRef × Animatable))
  translateTrackSet : PonData → TResult (ℤ → List (NamedPropRef × Animatable))
  translateWeightedTracks : PonData → TResult (ℤ → List (NamedPropRef × Animatable))

/-- The translated `Box<Track>` variants of track.rs. -/
inductive TrackBox where
  | leaf (tr : CurveTrack)
  | composite (value_at : ℤ → List (NamedPropRef × Animatable))
  | fromResource (resource : ℤ → List (NamedPropRef × Animatable))

/-- Translation `Translatable<Box<Track>>::inner_translate` (track.rs lines 26-43).
`TResult.panicked` marks `resources.get(&resource_id).unwrap()`, which
panics when the identifier is absent from the registry. -/
def ponTranslateTrack (context : TranslateContext) (type_name : String) (data : PonData) :
    TResult TrackBox :=
  if type_name = "key_framed" then
    match ponTranslateCurveTrack "key_framed" data with
    | TResult.ok tr => TResult.ok (TrackBox.leaf tr)
    | TResult.err e => TResult.err e
    | TResult.panicked => TResult.panicked
  else if type_name = "fixed_value" then
    match ponTranslateCurveTrack "fixed_value" data with
    | TResult.ok tr => TResult.ok (TrackBox.leaf tr)
    | TResult.err e => TResult.err e
    | TResult.panicked => TResult.panicked
  else if type_name = "track_set" then
    match context.translateTrackSet data with
    | TResult.ok f => TResult.ok (TrackBox.composite f)
    | TResult.err e => TResult.err e
    | TResult.panicked => TResult.panicked
  else if type_name = "weighted_tracks" then
    match context.translateWeightedTracks data with
    | TResult.ok f => TResult.ok (TrackBox.composite f)
    | TResult.err e => TResult.err e
    | TResult.panicked => TResult.panicked
  else if type_name = "track_set_from_resource" then
    match data.stringValue with
    | none => TResult.err (PonTranslateErr.MismatchType "String" "other")
    | some resource_id =>
      match context.resources resource_id with
      | none => TResult.panicked
      | some track_set => TResult.ok (TrackBox.fromResource track_set)
  else TResult.err (PonTranslateErr.UnrecognizedType type_name)

/-- The curve parameter as the spec words it (spec section 4.1 steps 1-3):
`loc = elapsed - offset`; under `Forever`, when `loc` exceeds the duration,
`loc` becomes the integer-millisecond modulo `loc mod duration`; then
`Absolute` divides the milliseconds by 1000 and `Relative` divides them by
the duration's milliseconds. -/
def specParam (tr : CurveTrack) (elapsed : ℤ) : ℚ :=
  let loc : ℤ := elapsed - tr.offset
  let loc2 : ℤ :=
    if tr.loop_type = Loop.Forever ∧ tr.duration < loc then Int.tmod loc tr.duration else loc
  match tr.curve_time with
  | CurveTime.Absolute => (loc2 : ℚ) / 1000
  | CurveTime.Relative => (loc2 : ℚ) / (tr.duration : ℚ)

/-- Closed form of `CurveTrack.value_at` for a positive duration: the output
is empty exactly in the finished-`Once` case, and otherwise a single pair
sampling the curve at the spec's parameter. -/
theorem value_at_closed_form (tr : CurveTrack) (hd : 0 < tr.duration) (time : ℤ) :
    tr.value_at time =
      if tr.loop_type = Loop.Once ∧ tr.duration < time - tr.offset then some []
      else some [(tr.property, tr.curve (specParam tr time))] := by
  have hdz : tr.duration ≠ 0 := ne_of_gt hd
  unfold CurveTrack.value_at specParam CurveTrack.curveParamOf
  by_cases h1 : tr.duration < time - tr.offset
  · cases hl : tr.loop_type with
    | Forever => simp [h1, hl, hdz]
    | Once => simp [h1, hl]
  · cases hl : tr.loop_type with
    | Forever => simp [h1, hl]
    | Once => simp [h1, hl]

/-- A sample leaf track for instantiating hypothesised theorems: one-channel
identity curve, offset 0, duration 1000 ms, `Forever`, absolute curve time. -/
def sampleTrack : CurveTrack :=
  { curve := fun p => [p]
    offset := 0
    property := "x"
    loop_type := Loop.Forever
    duration := 1000
    curve_time := CurveTime.Absolute }

/-- Like `sampleTrack` but with `Once` looping. -/
def sampleOnce : CurveTrack := { sampleTrack with loop_type := Loop.Once }

/-- C2, counterexample: with `loop = Forever`, offset 0 and duration 1000 ms,
the elapsed time x = 0 satisfies `0 ≤ x < d`, yet evaluating at `d + x`
(the exact boundary, which the strict wrap test leaves unwrapped at
parameter 1) differs from evaluating at `x` (parameter 0). -/
theorem wrap_at_boundary_differs :
    (0 : ℤ) ≤ 0 ∧ (0 : ℤ) < 1000 ∧
      sampleTrack.value_at (1000 + 0) ≠ sampleTrack.value_at 0 := by
  refine ⟨le_refl 0, by norm_num, ?_⟩
  intro h
  simp only [sampleTrack, CurveTrack.value_at, CurveTrack.curveParamOf] at h
  norm_num at h

/-- C2 (amended): for a leaf track with `loop = Forever`, offset zero and
positive duration d, and every elapsed remainder x with `0 < x < d`,
evaluating at `d + x` equals evaluating at `x`. -/
theorem wrap_equivalence (tr : CurveTrack) (hl : tr.loop_type = Loop.Forever)
    (ho : tr.offset = 0) (hd : 0 < tr.duration) (x : ℤ)
    (hx0 : 0 < x) (hxd : x < tr.duration) :
    tr.value_at (tr.duration + x) = tr.value_at x := by
  have hmod : Int.tmod (tr.duration + x) tr.duration = x := by
    rw [Int.tmod_eq_emod (by omega) (le_of_lt hd)]
    have hr : tr.duration + x = x + tr.duration * 1 := by ring
    rw [hr, Int.add_mul_emod_self_left, Int.emod_eq_of_lt (le_of_lt hx0) hxd]
  have hparam : specParam tr (tr.duration + x) = specParam tr x := by
    unfold specParam
    simp only [ho, sub_zero, hl, eq_self_iff_true, true_and]
    rw [if_pos (show tr.duration < tr.duration + x by omega),
        if_neg (show ¬ tr.duration < x by omega), hmod]
  rw [value_at_closed_form tr hd, value_at_closed_form tr hd]
  have hnone : ¬ tr.loop_type = Loop.Once := by rw [hl]; intro h; cases h
  rw [if_neg (fun h => hnone h.1), if_neg (fun h => hnone h.1), hparam]

/-- C2, witness for the amended statement at x = 500, d = 1000. -/
theorem wrap_equivalence_witness :
    sampleTrack.value_at (sampleTrack.duration + 500) = sampleTrack.value_at 500 :=
  wrap_equivalence sampleTrack rfl rfl (by decide) 500 (by decide) (by decide)

/-- C3: for a validly constructed leaf track (positive duration), evaluation
is total — `value_at` always yields a result (never hits the modulo panic) —
and a finished `Once` track yields the normal empty sequence. -/
theorem value_at_total (tr : CurveTrack) (hd : 0 < tr.duration) (time : ℤ) :
    (tr.value_at time).isSome = true ∧
      (tr.loop_type = Loop.Once → tr.duration < time - tr.offset →
        tr.value_at time = some []) := by
  rw [value_at_closed_form tr hd time]
  constructor
  · split <;> simp
  · intro h1 h2
    rw [if_pos ⟨h1, h2⟩]

/-- C3, witness at elapsed 100 ms on the sample track. -/
theorem value_at_total_witness :
    (sampleTrack.value_at 100).isSome = true ∧
      (sampleTrack.loop_type = Loop.Once → sampleTrack.duration < 100 - sampleTrack.offset →
        sampleTrack.value_at 100 = some []) :=
  value_at_total sampleTrack (by decide) 100

/-- C4: for a leaf track with positive duration, `value_at` is empty exactly
when `loop_type = Once` and elapsed minus offset exceeds the duration, and
otherwise one pair of the stored property and the curve sampled at the
mapped parameter. -/
theorem value_at_shape (tr : CurveTrack) (hd : 0 < tr.duration) (time : ℤ) :
    tr.value_at time =
      if tr.loop_type = Loop.Once ∧ tr.duration < time - tr.offset then some []
      else some [(tr.property, tr.curve (specParam tr time))] :=
  value_at_closed_form tr hd time

/-- C4, witness at elapsed 1500 ms on the finished `Once` sample track. -/
theorem value_at_shape_witness :
    sampleOnce.value_at 1500 =
      if sampleOnce.loop_type = Loop.Once ∧ sampleOnce.duration < 1500 - sampleOnce.offset
      then some []
      else some [(sampleOnce.property, sampleOnce.curve (specParam sampleOnce 1500))] :=
  value_at_shape sampleOnce (by decide) 1500

/-- C5: for a leaf track with positive duration, every emitted value samples
the curve at the parameter the spec prescribes (`specParam`: wrap by
integer-millisecond modulo under `Forever`, then divide by 1000 for
`Absolute` or by the duration's milliseconds for `Relative`). -/
theorem value_at_param_formula (tr : CurveTrack) (hd : 0 < tr.duration) (time : ℤ) :
    tr.value_at time = some [] ∨
      tr.value_at time = some [(tr.property, tr.curve (specParam tr time))] := by
  rw [value_at_closed_form tr hd time]
  split
  · exact Or.inl rfl
  · exact Or.inr rfl

/-- C5, witness at elapsed 2500 ms on the sample `Forever` track. -/
theorem value_at_param_formula_witness :
    sampleTrack.value_at 2500 = some [] ∨
      sampleTrack.value_at 2500 =
        some [(sampleTrack.property, sampleTrack.curve (specParam sampleTrack 2500))] :=
  value_at_param_formula sampleTrack (by decide) 2500

/-- C9: at the exact boundary `elapsed - offset = duration` the strict test
keeps the track live for both loop types: one pair is emitted, sampled at
the unwrapped local time `duration` (no wrap to zero, no `Once` finish). -/
theorem boundary_inclusive (tr : CurveTrack) (_hd : 0 < tr.duration) (time : ℤ)
    (hb : time - tr.offset = tr.duration) :
    tr.value_at time = some [(tr.property, tr.curve (tr.curveParamOf tr.duration))] := by
  unfold CurveTrack.value_at
  simp [hb]

/-- C9, witness at the boundary of the `Once` sample track. -/
theorem boundary_inclusive_witness :
    sampleOnce.value_at 1000 =
      some [(sampleOnce.property, sampleOnce.curve (sampleOnce.curveParamOf sampleOnce.duration))] :=
  boundary_inclusive sampleOnce (by decide) 1000 (by decide)

/-- C6: a `TrackSetFromResource` wrapper forwards the elapsed time unchanged
to the referenced resource and returns its result as-is. -/
theorem fromResource_forwards (resource : ℤ → List (NamedPropRef × Animatable)) (time : ℤ) :
    (TrackSetFromResource.mk resource).value_at time = resource time := rfl

/-- C10: `Animation.update` and `CurveTrack.value_at` implement the same
time mapping: for equal offset, duration, loop and curve-time configurations
and equal elapsed time there is a shared mapping outcome `r` (panic, no
output, or one shared curve parameter) that both results are the image of. -/
theorem update_value_at_agree (a : Animation) (c : CurveTrack)
    (ho : a.offset = c.offset) (hd : a.duration = c.duration)
    (hl : a.loop_type = c.loop_type) (hc : a.curve_time = c.curve_time) (time : ℤ) :
    ∃ r : Option (Option ℚ),
      a.update time =
        Option.map (fun o => match o with
          | none => []
          | some p => [(a.property, a.curve p)]) r ∧
      c.value_at time =
        Option.map (fun o => match o with
          | none => []
          | some p => [(c.property, c.curve p)]) r := by
  have hparam : ∀ ms : ℤ, a.curveParamOf ms = c.curveParamOf ms := by
    intro ms
    unfold Animation.curveParamOf CurveTrack.curveParamOf
    rw [hc, hd]
  simp only [Animation.update, CurveTrack.value_at]
  rw [ho, hd, hl]
  by_cases h1 : c.duration < time - c.offset
  · rw [if_pos h1, if_pos h1]
    by_cases h2 : c.loop_type = Loop.Forever
    · rw [if_pos h2, if_pos h2]
      by_cases h3 : c.duration = 0
      · rw [if_pos h3, if_pos h3]
        exact ⟨none, rfl, rfl⟩
      · rw [if_neg h3, if_neg h3]
        exact ⟨some (some (c.curveParamOf (Int.tmod (time - c.offset) c.duration))),
               by rw [hparam]; rfl, rfl⟩
    · rw [if_neg h2, if_neg h2]
      exact ⟨some none, rfl, rfl⟩
  · rw [if_neg h1, if_neg h1]
    exact ⟨some (some (c.curveParamOf (time - c.offset))), by rw [hparam]; rfl, rfl⟩

/-- A sample scalar animation matching `sampleOnce`'s configuration. -/
def sampleAnimation : Animation :=
  { curve := fun p => p
    offset := 0
    property := "x"
    loop_type := Loop.Once
    duration := 1000
    curve_time := CurveTime.Absolute }

/-- C10, witness at elapsed 100 ms on the matching sample pair. -/
theorem update_value_at_agree_witness :
    ∃ r : Option (Option ℚ),
      sampleAnimation.update 100 =
        Option.map (fun o => match o with
          | none => []
          | some p => [(sampleAnimation.property, sampleAnimation.curve p)]) r ∧
      sampleOnce.value_at 100 =
        Option.map (fun o => match o with
          | none => []
          | some p => [(sampleOnce.property, sampleOnce.curve p)]) r :=
  update_value_at_agree sampleAnimation sampleOnce rfl rfl rfl rfl 100

/-- C7: a key_framed configuration omitting the optional fields translates
with the documented defaults: stored duration 1000 ms (1.0 seconds), loop
`Once`, curve time `Absolute`. -/
theorem keyFramed_defaults (data : PonData) (hdur : data.duration = none)
    (hloop : data.loopOpt = none) (hct : data.curveTimeOpt = none)
    (tr : CurveTrack) (hok : ponTranslateCurveTrack "key_framed" data = TResult.ok tr) :
    tr.duration = 1000 ∧ tr.loop_type = Loop.Once ∧ tr.curve_time = CurveTime.Absolute := by
  cases hp : data.property with
  | none => simp [ponTranslateCurveTrack, hp] at hok
  | some property =>
    cases hk : data.keys with
    | none => simp [ponTranslateCurveTrack, hp, hk] at hok
    | some keys_array =>
      cases keys_array with
      | nil => simp [ponTranslateCurveTrack, hp, hk] at hok
      | cons fk rest =>
        cases htk : translateKey fk with
        | error e => simp [ponTranslateCurveTrack, hp, hk, htk] at hok
        | ok kv =>
          cases htks : translateKeys (fk :: rest) with
          | error e => simp [ponTranslateCurveTrack, hp, hk, htk, htks] at hok
          | ok keys =>
            simp only [ponTranslateCurveTrack, hp, hk, htk, htks, hdur, hloop, hct] at hok
            rw [if_pos trivial] at hok
            injection hok with h
            rw [← h]
            refine ⟨?_, rfl, rfl⟩
            norm_num [ratTruncToInt, Option.getD]


/-- The key_framed data with an empty keys list used for C1. -/
def emptyKeysData : PonData :=
  { property := some "x"
    duration := none
    loopOpt := none
    curveTimeOpt := none
    keys := some []
    value := none
    stringValue := none }

/-- C1, counterexample: translating a key_framed config with an empty keys
list panics (`keys_array[0]` indexes out of bounds, `TResult.panicked`)
rather than returning a structured translation error (`TResult.err`, a
constructor disjoint from `TResult.panicked`). -/
theorem emptyKeys_translation_panics :
    ponTranslateCurveTrack "key_framed" emptyKeysData = TResult.panicked := rfl

/-- C1 (amended): an unrecognized type tag yields a structured
`UnrecognizedType` error, but the other cases yield no structured error: a
key_framed config with an empty keys list panics, a non-positive duration is
accepted without validation (producing a track whose stored duration is
non-positive), and a `track_set_from_resource` identifier absent from the
registry panics. -/
theorem translation_error_behavior :
    (∀ (context : TranslateContext) (data : PonData) (s : String),
      s ≠ "key_framed" → s ≠ "fixed_value" → s ≠ "track_set" →
      s ≠ "weighted_tracks" → s ≠ "track_set_from_resource" →
      ponTranslateTrack context s data = TResult.err (PonTranslateErr.UnrecognizedType s)) ∧
    (∀ (data : PonData) (property : NamedPropRef),
      data.property = some property → data.keys = some [] →
      ponTranslateCurveTrack "key_framed" data = TResult.panicked) ∧
    (∀ (data : PonData) (property : NamedPropRef) (q : ℚ),
      data.property = some property → data.duration = some q → q ≤ 0 →
      data.keys = some [PonKey.good 0 [0]] →
      ∃ tr, ponTranslateCurveTrack "key_framed" data = TResult.ok tr ∧ tr.duration ≤ 0) ∧
    (∀ (context : TranslateContext) (data : PonData) (resource_id : String),
      data.stringValue = some resource_id → context.resources resource_id = none →
      ponTranslateTrack context "track_set_from_resource" data = TResult.panicked) := by
  refine ⟨?_, ?_, ?_, ?_⟩
  · intro context data s h1 h2 h3 h4 h5
    unfold ponTranslateTrack
    rw [if_neg h1, if_neg h2, if_neg h3, if_neg h4, if_neg h5]
  · intro data property hp hk
    unfold ponTranslateCurveTrack
    rw [if_pos rfl, hp, hk]
  · intro data property q hp hdur hq hk
    refine ⟨{ curve := lkfValueA [(0, [0])]
              offset := 0
              property := property
              loop_type := data.loopOpt.getD Loop.Once
              duration := ratTruncToInt (q * 1000)
              curve_time := data.curveTimeOpt.getD CurveTime.Absolute }, ?_, ?_⟩
    · unfold ponTranslateCurveTrack
      rw [if_pos rfl, hp, hdur, hk]
      rfl
    · show ratTruncToInt (q * 1000) ≤ 0
      have hq1000 : q * 1000 ≤ 0 := by
        have := mul_le_mul_of_nonneg_right hq (show (0 : ℚ) ≤ 1000 by norm_num)
        simpa using this
      unfold ratTruncToInt
      split
      · exact le_trans (Int.floor_mono hq1000) (by simp)
      · exact le_trans (Int.ceil_mono hq1000) (by simp)
  · intro context data resource_id hs hres
    unfold ponTranslateTrack
    rw [if_neg (by decide), if_neg (by decide), if_neg (by decide), if_neg (by decide),
      if_pos rfl, hs]
    simp only [hres]

/-- A translation context with an empty resource registry. -/
def emptyContext : TranslateContext :=
  { resources := fun _ => none
    translateTrackSet := fun _ => TResult.err (PonTranslateErr.Generic "opaque")
    translateWeightedTracks := fun _ => TResult.err (PonTranslateErr.Generic "opaque") }

/-- Data carrying only a resource identifier. -/
def resourceData : PonData :=
  { property := none
    duration := none
    loopOpt := none
    curveTimeOpt := none
    keys := none
    value := none
    stringValue := some "missing" }

/-- Data with a negative duration and one well-formed key. -/
def negDurationData : PonData :=
  { property := some "x"
    duration := some (-5)
    loopOpt := none
    curveTimeOpt := none
    keys := some [PonKey.good 0 [0]]
    value := none
    stringValue := none }

/-- C1, witness for the amended statement on concrete configurations. -/
theorem translation_error_behavior_witness :
    ponTranslateTrack emptyContext "bogus" resourceData
        = TResult.err (PonTranslateErr.UnrecognizedType "bogus") ∧
      ponTranslateCurveTrack "key_framed" emptyKeysData = TResult.panicked ∧
      (∃ tr, ponTranslateCurveTrack "key_framed" negDurationData = TResult.ok tr ∧
        tr.duration ≤ 0) ∧
      ponTranslateTrack emptyContext "track_set_from_resource" resourceData
        = TResult.panicked := by
  have h := translation_error_behavior
  exact ⟨h.1 emptyContext resourceData "bogus"
           (by decide) (by decide) (by decide) (by decide) (by decide),
         h.2.1 emptyKeysData "x" rfl rfl,
         h.2.2.1 negDurationData "x" (-5) rfl rfl (by norm_num) rfl,
         h.2.2.2 emptyContext resourceData "missing" rfl rfl⟩

/-- Keyframes strictly ascending in time (spec section 3 invariant). -/
def KeysSorted (keys : List (ℚ × ℚ)) : Prop :=
  List.Pairwise (fun a b => a.1 < b.1) keys

/-- One-step unfolding of `lkfValue` on a two-or-more key list. -/
theorem lkfValue_step (t0 v0 t1 v1 : ℚ) (rest : List (ℚ × ℚ)) (t : ℚ) :
    lkfValue ((t0, v0) :: (t1, v1) :: rest) t =
      if t ≤ t0 then v0
      else if t < t1 then v0 + (v1 - v0) * (t - t0) / (t1 - t0)
      else lkfValue ((t1, v1) :: rest) t := rfl

/-- At or before the first key's time the curve holds the first key's value. -/
theorem lkfValue_head_clamp (t0 v0 : ℚ) (rest : List (ℚ × ℚ)) (t : ℚ) (h : t ≤ t0) :
    lkfValue ((t0, v0) :: rest) t = v0 := by
  cases rest with
  | nil => rfl
  | cons k ks =>
    obtain ⟨t1, v1⟩ := k
    rw [lkfValue_step, if_pos h]

/-- At or after the last key's time the curve holds the last key's value. -/
theorem lkfValue_last_clamp :
    ∀ (keys : List (ℚ × ℚ)) (k : ℚ × ℚ) (t : ℚ),
      KeysSorted keys → keys.getLast? = some k → k.1 ≤ t → lkfValue keys t = k.2 := by
  intro keys
  induction keys with
  | nil => intro k t _ hlast _; cases hlast
  | cons k0 rest ih =>
    intro k t hs hlast hle
    obtain ⟨t0, v0⟩ := k0
    cases rest with
    | nil =>
      have hk : k = (t0, v0) := by simpa using hlast.symm
      rw [hk]
      rfl
    | cons k1 rest2 =>
      obtain ⟨t1, v1⟩ := k1
      have hlast2 : ((t1, v1) :: rest2).getLast? = some k := by
        simpa using hlast
      have hkmem : k ∈ (t1, v1) :: rest2 := List.mem_of_getLast?_eq_some hlast2
      have hpair := List.pairwise_cons.mp hs
      have h0 : t0 < k.1 := hpair.1 k hkmem
      have h1 : t1 ≤ k.1 := by
        rcases List.mem_cons.mp hkmem with h | h
        · rw [h]
        · exact le_of_lt ((List.pairwise_cons.mp hpair.2).1 k h)
      rw [lkfValue_step, if_neg (not_le.mpr (lt_of_lt_of_le h0 hle)),
        if_neg (not_lt.mpr (le_trans h1 hle))]
      exact ih k t hpair.2 hlast2 hle

/-- Between a bracketing pair of keys the curve interpolates linearly
(spec section 4.3 formula). -/
theorem lkfValue_bracket :
    ∀ (pre : List (ℚ × ℚ)) (ta va tb vb : ℚ) (post : List (ℚ × ℚ)) (t : ℚ),
      KeysSorted (pre ++ (ta, va) :: (tb, vb) :: post) → ta ≤ t → t < tb →
      lkfValue (pre ++ (ta, va) :: (tb, vb) :: post) t
        = va + (vb - va) * (t - ta) / (tb - ta) := by
  intro pre
  induction pre with
  | nil =>
    intro ta va tb vb post t _ h1 h2
    simp only [List.nil_append]
    by_cases h : t ≤ ta
    · have ht : t = ta := le_antisymm h h1
      rw [lkfValue_step, if_pos h, ht]
      simp
    · rw [lkfValue_step, if_neg h, if_pos h2]
  | cons kp pre2 ih =>
    intro ta va tb vb post t hs h1 h2
    obtain ⟨tp, vp⟩ := kp
    have hpair := List.pairwise_cons.mp hs
    have hta : tp < ta := by
      apply hpair.1 (ta, va)
      exact List.mem_append.mpr (Or.inr (List.mem_cons_self _ _))
    cases pre2 with
    | nil =>
      simp only [List.cons_append, List.nil_append]
      rw [lkfValue_step, if_neg (not_le.mpr (lt_of_lt_of_le hta h1)),
        if_neg (not_lt.mpr h1)]
      exact ih ta va tb vb post t hpair.2 h1 h2
    | cons kq pre3 =>
      obtain ⟨tq, vq⟩ := kq
      have htq : tq < ta := by
        apply (List.pairwise_cons.mp hpair.2).1 (ta, va)
        exact List.mem_append.mpr (Or.inr (List.mem_cons_self _ _))
      simp only [List.cons_append]
      rw [lkfValue_step, if_neg (not_le.mpr (lt_of_lt_of_le hta h1)),
        if_neg (not_lt.mpr (le_of_lt (lt_of_lt_of_le htq h1)))]
      exact ih ta va tb vb post t hpair.2 h1 h2

/-- C8: the spec-modelled linear keyframe curve on keys [(0,0),(1,1)] gives
value(0.25) = 0.25, value(-1) = 0 and value(2) = 1; in general it clamps to
the first key's value at or below the first key time, clamps to the last
key's value at or above the last key time, and interpolates linearly on the
bracketing pair otherwise. -/
theorem linear_keyframe_curve_spec :
    lkfValue [(0, 0), (1, 1)] 0.25 = 0.25 ∧
    lkfValue [(0, 0), (1, 1)] (-1) = 0 ∧
    lkfValue [(0, 0), (1, 1)] 2 = 1 ∧
    (∀ (t0 v0 : ℚ) (rest : List (ℚ × ℚ)) (t : ℚ), t ≤ t0 →
      lkfValue ((t0, v0) :: rest) t = v0) ∧
    (∀ (keys : List (ℚ × ℚ)) (k : ℚ × ℚ) (t : ℚ),
      KeysSorted keys → keys.getLast? = some k → k.1 ≤ t → lkfValue keys t = k.2) ∧
    (∀ (pre : List (ℚ × ℚ)) (ta va tb vb : ℚ) (post : List (ℚ × ℚ)) (t : ℚ),
      KeysSorted (pre ++ (ta, va) :: (tb, vb) :: post) → ta ≤ t → t < tb →
      lkfValue (pre ++ (ta, va) :: (tb, vb) :: post) t
        = va + (vb - va) * (t - ta) / (tb - ta)) := by
  refine ⟨?_, ?_, ?_, lkfValue_head_clamp, lkfValue_last_clamp, lkfValue_bracket⟩
  · norm_num [lkfValue]
  · norm_num [lkfValue]
  · norm_num [lkfValue]

/-- C8, witness: the clamp and bracket statements instantiated on the
concrete sorted key list [(0,0),(2,10)]. -/
theorem linear_keyframe_curve_spec_witness :
    lkfValue [(0, 0), (2, 10)] (-5) = 0 ∧
    lkfValue [(0, 0), (2, 10)] 7 = 10 ∧
    lkfValue [(0, 0), (2, 10)] 1 = 5 := by
  have h := linear_keyframe_curve_spec
  have hsorted : KeysSorted [((0 : ℚ), (0 : ℚ)), (2, 10)] := by
    unfold KeysSorted
    norm_num [List.pairwise_cons]
  refine ⟨h.2.2.2.1 0 0 [(2, 10)] (-5) (by norm_num), ?_, ?_⟩
  · exact h.2.2.2.2.1 [(0, 0), (2, 10)] (2, 10) 7 hsorted rfl (by norm_num)
  · have hb := h.2.2.2.2.2 [] 0 0 2 10 [] 1 hsorted (by norm_num) (by norm_num)
    simp only [List.nil_append] at hb
    rw [hb]
    norm_num

/-- Key_framed data with the optional fields absent, used in the C7 witness. -/
def defaultsData : PonData :=
  { property := some "x"
    duration := none
    loopOpt := none
    curveTimeOpt := none
    keys := some [PonKey.good 0 [0], PonKey.good 1 [1]]
    value := none
    stringValue := none }

/-- The track `defaultsData` translates to. -/
def defaultsTrack : CurveTrack :=
  { curve := lkfValueA [(0, [0]), (1, [1])]
    offset := 0
    property := "x"
    loop_type := Loop.Once
    duration := ratTruncToInt (1 * 1000)
    curve_time := CurveTime.Absolute }

/-- C7, witness on the concrete `defaultsData` configuration. -/
theorem keyFramed_defaults_witness :
    defaultsTrack.duration = 1000 ∧ defaultsTrack.loop_type = Loop.Once ∧
      defaultsTrack.curve_time = CurveTime.Absolute :=
  keyFramed_defaults defaultsData rfl rfl rfl defaultsTrack rfl

end PyramidAnimation
